import Mathlib

/-!
Verification of the criteria-extraction and hybrid-scoring engine of an
O-1A visa qualification assessment service, embedded from
`src/core_idea/core.py`.  Python strings are modelled as `List Char`
(`Str`), Python dicts with criterion keys as association lists
(`lookupD` models `dict.get`), and the external Hugging Face call
(`query_llm`) as an oracle parameter `ora : Str → Str` mapping the
prompt to the returned (already processed) response text.  Regular
expressions from `CRITERIA_PATTERNS` are embedded as an explicit
pattern AST (`RE`) with a backtracking matcher whose `finditer`
reproduces `re.finditer`: leftmost match, greedy/left-first preference,
non-overlapping continuation from the match end.
-/

set_option maxHeartbeats 4000000

abbrev Str := List Char

/-- Char-wise lower-casing, the model of Python `str.lower()`. -/
def lowerStr (s : Str) : Str := s.map Char.toLower

/-- Python whitespace class (`str.strip` / regex `\s`, ASCII range). -/
def pyIsSpace (c : Char) : Bool :=
  c == ' ' || c == '\t' || c == '\n' || c == '\r' || c == '\x0b' || c == '\x0c'

/-- Model of Python `str.strip()`: drop whitespace from both ends. -/
def pstrip (s : Str) : Str :=
  ((s.dropWhile pyIsSpace).reverse.dropWhile pyIsSpace).reverse

/-- Model of the Python slicing expression `s[a:b]` (for `a ≤ b`; clamped like Python). -/
def pySlice (s : Str) (a b : Nat) : Str := (s.drop a).take (b - a)

/-- Model of Python `hay.find(nee)`: index of the first occurrence (`none` for -1). -/
def sfind (hay nee : Str) : Option Nat :=
  (List.range (hay.length + 1)).find? (fun i => nee.isPrefixOf (hay.drop i))

/-- Model of Python `hay.find(nee, start)`. -/
def sfindFrom (hay nee : Str) (start : Nat) : Option Nat :=
  (List.range (hay.length + 1)).find? (fun i => decide (start ≤ i) && nee.isPrefixOf (hay.drop i))

/-- Model of Python `nee in hay` (substring test). -/
def scontains (hay nee : Str) : Bool := (sfind hay nee).isSome

/-!  Pattern AST covering the constructs used in `CRITERIA_PATTERNS`:
literal characters, character classes with `*` and `+`, an optional
character (`s?`), alternation, sequencing and the word-boundary
assertion. -/

inductive RE where
  | nul
  | eps
  | chr (c : Char)
  | cls (p : Char → Bool)
  | seq (a b : RE)
  | alt (a b : RE)
  | starCls (p : Char → Bool)
  | plusCls (p : Char → Bool)
  | optChr (c : Char)
  | wb

/-- Regex word character (`\w` for the lower-cased ASCII text scanned here). -/
def wordChar (c : Char) : Bool := c.isAlphanum || c == '_'

def wordAt (s : Str) (i : Nat) : Bool :=
  match s[i]? with
  | some c => wordChar c
  | none => false

/-- The `\b` assertion: a word/non-word transition at position `i`. -/
def atWordBoundary (s : Str) (i : Nat) : Bool :=
  (if i = 0 then false else wordAt s (i - 1)) != wordAt s i

/-- Length of the maximal run of class-`p` characters starting at `i`. -/
def runLen (p : Char → Bool) (s : Str) (i : Nat) : Nat :=
  ((s.drop i).takeWhile p).length

/-- All end positions of a match of `r` starting at `i`, in backtracking
preference order (alternation left-first, repetition greedy). -/
def reEnds : RE → Str → Nat → List Nat
  | .nul, _, _ => []
  | .eps, _, i => [i]
  | .chr c, s, i =>
    match s[i]? with
    | some d => if d == c then [i + 1] else []
    | none => []
  | .cls p, s, i =>
    match s[i]? with
    | some d => if p d then [i + 1] else []
    | none => []
  | .seq a b, s, i => (reEnds a s i).flatMap (fun j => reEnds b s j)
  | .alt a b, s, i => reEnds a s i ++ reEnds b s i
  | .starCls p, s, i => (List.range (runLen p s i + 1)).reverse.map (fun k => i + k)
  | .plusCls p, s, i => (List.range (runLen p s i)).reverse.map (fun k => i + k + 1)
  | .optChr c, s, i =>
    (match s[i]? with
     | some d => if d == c then [i + 1] else []
     | none => []) ++ [i]
  | .wb, s, i => if atWordBoundary s i then [i] else []

/-- End position of the preferred match of `r` at `i`, if any. -/
def firstEnd (r : RE) (s : Str) (i : Nat) : Option Nat := (reEnds r s i).head?

/-- Scanning loop of `re.finditer`: try each position left to right,
emit the match start, continue past the match (fuel `s.length + 1`
covers every position once, as each step advances by at least one). -/
def finditerGo (r : RE) (s : Str) : Nat → Nat → List Nat
  | 0, _ => []
  | fuel + 1, i =>
    if s.length < i then []
    else
      match firstEnd r s i with
      | some e => i :: finditerGo r s fuel (max e (i + 1))
      | none => finditerGo r s fuel (i + 1)

/-- Start positions of the non-overlapping matches of `r` in `s`,
the model of `re.finditer(pattern, s)`. -/
def finditer (r : RE) (s : Str) : List Nat := finditerGo r s (s.length + 1) 0

/-- Literal word as a pattern. -/
def rlit (w : String) : RE := w.data.foldr (fun c r => RE.seq (RE.chr c) r) RE.eps

/-- Alternation of a list of patterns (left-first preference). -/
def raltL : List RE → RE
  | [] => RE.nul
  | [r] => r
  | r :: rs => RE.alt r (raltL rs)

/-- Sequence of a list of patterns. -/
def rseqL : List RE → RE
  | [] => RE.eps
  | [r] => r
  | r :: rs => RE.seq r (rseqL rs)

/-- Word-bounded group: the Python idiom `\b(...)\b`. -/
def bword (r : RE) : RE := RE.seq RE.wb (RE.seq r RE.wb)

def spaceDash (c : Char) : Bool := pyIsSpace c || c == '-'

/-- `\b(award|prize|honor|scholarship|fellowship|top[\s-]*\d+%|finalist|selected|featured)\b` -/
def awardsPat1 : RE := bword (raltL
  [rlit "award", rlit "prize", rlit "honor", rlit "scholarship", rlit "fellowship",
   rseqL [rlit "top", RE.starCls spaceDash, RE.plusCls Char.isDigit, RE.chr '%'],
   rlit "finalist", rlit "selected", rlit "featured"])

/-- `(?i)\b(hackathon|competition|grants?|recognized as|accolade|distinction)\b`
(the `(?i)` flag is inert: the scanner already lower-cases the text). -/
def awardsPat2 : RE := bword (raltL
  [rlit "hackathon", rlit "competition", rseqL [rlit "grant", RE.optChr 's'],
   rlit "recognized as", rlit "accolade", rlit "distinction"])

/-- `\b(member of|fellowship|invited member|board|advisory|consortium|coalition)\b` -/
def membershipPat1 : RE := bword (raltL
  [rlit "member of", rlit "fellowship", rlit "invited member", rlit "board",
   rlit "advisory", rlit "consortium", rlit "coalition"])

/-- `(?i)\b(peer review|selection committee|exclusive|accelerator|<\s*5%)\b` -/
def membershipPat2 : RE := bword (raltL
  [rlit "peer review", rlit "selection committee", rlit "exclusive", rlit "accelerator",
   rseqL [RE.chr '<', RE.starCls pyIsSpace, RE.chr '5', RE.chr '%']])

/-- `\b(featured|interview|article|covered|quoted|mentioned|citation)\b` -/
def pressPat1 : RE := bword (raltL
  [rlit "featured", rlit "interview", rlit "article", rlit "covered", rlit "quoted",
   rlit "mentioned", rlit "citation"])

/-- `(?i)\b(medium|substack|techcrunch|forbes|wired|ted talk|panelist)\b` -/
def pressPat2 : RE := bword (raltL
  [rlit "medium", rlit "substack", rlit "techcrunch", rlit "forbes", rlit "wired",
   rlit "ted talk", rlit "panelist"])

/-- `\b(patent|innovati(on|ve)|breakthrough|pioneer|developed|created|built)\b` -/
def origPat1 : RE := bword (raltL
  [rlit "patent", rseqL [rlit "innovati", RE.alt (rlit "on") (rlit "ve")],
   rlit "breakthrough", rlit "pioneer", rlit "developed", rlit "created", rlit "built"])

/-- `(?i)\b(adopted by|implemented at|integrated into|deployed across)\b` -/
def origPat2 : RE := bword (raltL
  [rlit "adopted by", rlit "implemented at", rlit "integrated into", rlit "deployed across"])

/-- `\b(lead|principal|chief|director|architect|founder|strategic|key (role|position))\b` -/
def critPat1 : RE := bword (raltL
  [rlit "lead", rlit "principal", rlit "chief", rlit "director", rlit "architect",
   rlit "founder", rlit "strategic", rseqL [rlit "key ", RE.alt (rlit "role") (rlit "position")]])

/-- `(?i)\b(unicorn|fortune 500|y combinator|top-tier|mission-critical)\b` -/
def critPat2 : RE := bword (raltL
  [rlit "unicorn", rlit "fortune 500", rlit "y combinator", rlit "top-tier",
   rlit "mission-critical"])

/-- The eight fixed O-1A criteria. -/
inductive Criterion where
  | awards
  | membership
  | press
  | judging
  | original_contribution
  | scholarly_articles
  | critical_employment
  | high_remuneration
deriving DecidableEq, Repr

/-- The keys of `LLM_PROMPTS`, in the dict's insertion order. -/
def allCriteria : List Criterion :=
  [.awards, .membership, .press, .judging, .original_contribution,
   .scholarly_articles, .critical_employment, .high_remuneration]

/-- `CRITERIA_PATTERNS`: the rule catalog has entries for only five of
the eight criteria, in this insertion order. -/
def CRITERIA_PATTERNS : List (Criterion × List RE) :=
  [(.awards, [awardsPat1, awardsPat2]),
   (.membership, [membershipPat1, membershipPat2]),
   (.press, [pressPat1, pressPat2]),
   (.original_contribution, [origPat1, origPat2]),
   (.critical_employment, [critPat1, critPat2])]

/-- Model of Python `dict.get(c, d)` on a criterion-keyed dict. -/
def lookupD {α : Type} : List (Criterion × α) → Criterion → α → α
  | [], _, d => d
  | (k, v) :: rest, c, d => if k = c then v else lookupD rest c d

/-- `LLM_PROMPTS[c]` up to the `\x7btext\x7d` placeholder; every template ends
with `Text: \x7btext\x7d\nAnswer (yes/no):`, so `.format(text=t)` is the
concatenation `promptPre c ++ t ++ promptPost`. -/
def promptPre : Criterion → Str
  | .awards =>
    ("Evaluate if the text describes a nationally/internationally recognized achievement:\n" ++
     "1. Major competition wins (hackathons, industry challenges)\n" ++
     "2. Prestigious scholarships/fellowships\n" ++
     "3. Selective recognition lists (Forbes 30, 40 Under 40)\nText: ").data
  | .membership =>
    ("Does this indicate membership requiring exceptional achievement?\n" ++
     "1. <5% acceptance rate organizations\n" ++
     "2. Expert-vetted selection processes\n" ++
     "3. Leadership in field-specific consortia\nText: ").data
  | .press =>
    ("Is this coverage in reputable media discussing professional work?\n" ++
     "1. Industry-specific publications\n" ++
     "2. Major news features/interviews\n" ++
     "3. Citations in technical documentation\nText: ").data
  | .judging =>
    ("Does this show evaluation of others\x27 work?\n" ++
     "1. Competition/research judging\n" ++
     "2. Peer review activities\n" ++
     "3. Grant/patent evaluation\nText: ").data
  | .original_contribution =>
    ("Does this describe field-impacting innovations?\n" ++
     "1. Patented inventions\n" ++
     "2. Widely adopted methodologies\n" ++
     "3. Novel technical systems\nText: ").data
  | .scholarly_articles =>
    ("Evidence of authoritative publications?\n" ++
     "1. Peer-reviewed journals\n" ++
     "2. Conference proceedings\n" ++
     "3. Technical white papers\nText: ").data
  | .critical_employment =>
    ("Key role in distinguished organization?\n" ++
     "1. Leadership in Fortune 500/unicorns\n" ++
     "2. Essential roles at renowned institutions\n" ++
     "3. Strategic impact documentation\nText: ").data
  | .high_remuneration =>
    ("Compensation significantly above norms?\n" ++
     "1. Top percentile earnings\n" ++
     "2. Exceptional equity/benefits\n" ++
     "3. Industry comparison evidence\nText: ").data

def promptPost : Str := "\nAnswer (yes/no):".data

/-- `LLM_PROMPTS[criterion].format(text=text)`. -/
def promptOf (c : Criterion) (text : Str) : Str := promptPre c ++ text ++ promptPost

/-- `validate_match`: build the prompt, consult the oracle (`query_llm`,
modelled by `ora`), and report whether `"yes" in response.lower()`. -/
def validateMatch (ora : Str → Str) (c : Criterion) (text : Str) : Bool :=
  scontains (lowerStr (ora (promptOf c text))) "yes".data

/-- `get_context_window(text, position, window_size)` (the source default is 300;
`rule_based_scan` always passes 200). -/
def getContextWindow (text : Str) (position windowSize : Nat) : Str :=
  let start := position - windowSize
  let stop := min text.length (position + windowSize)
  pstrip (pySlice text start stop)

/-- Inner loops of `rule_based_scan` for one criterion: iterate the
patterns, iterate the match positions, append the context window unless
it is already present. -/
def scanMatches (text textLower : Str) (patterns : List RE) : List Str :=
  patterns.foldl
    (fun ms p =>
      (finditer p textLower).foldl
        (fun ms2 pos =>
          let context := getContextWindow text pos 200
          if context ∈ ms2 then ms2 else ms2 ++ [context])
        ms)
    []

/-- `rule_based_scan(text)`: keys come from `CRITERIA_PATTERNS`. -/
def ruleBasedScan (text : Str) : List (Criterion × List Str) :=
  CRITERIA_PATTERNS.map (fun cp => (cp.1, scanMatches text (lowerStr text) cp.2))

def nlnl : Str := "\n\n".data

/-- Branch body of `extract_section` once a header is found at `start`. -/
def sectionAt (text textLower : Str) (start : Nat) : Str :=
  match sfindFrom textLower nlnl start with
  | some stop => pstrip (pySlice text start stop)
  | none => pstrip (text.drop start)

/-- Header loop of `extract_section`. -/
def extractSectionGo (text textLower : Str) : List Str → Str
  | [] => []
  | h :: hs =>
    match sfind textLower (lowerStr h) with
    | some start => sectionAt text textLower start
    | none => extractSectionGo text textLower hs

/-- `extract_section(text, headers)`. -/
def extractSection (text : Str) (headers : List Str) : Str :=
  extractSectionGo text (lowerStr text) headers

/-- The `section_context` dict of `validate_with_llm`: only four
criteria have entries. -/
def sectionContext (fullText : Str) : List (Criterion × Str) :=
  [(.awards, extractSection fullText ["awards".data, "honors".data, "recognition".data]),
   (.membership, extractSection fullText ["membership".data, "leadership".data, "advisory".data]),
   (.press, extractSection fullText ["media".data, "publications".data, "press".data]),
   (.original_contribution,
    extractSection fullText ["innovations".data, "contributions".data, "patents".data])]

/-- The tagged fallback entry `f"Section: \x7bcontext[:250]\x7d..."`. -/
def secTag (context : Str) : Str := "Section: ".data ++ context.take 250 ++ "...".data

/-- Per-criterion body of `validate_with_llm`: filter the rule-based
candidates through the oracle; when none survives, fall back to
`section_context.get(criterion, full_text[:1000])` — validated only when
that context is nonempty (truthy). -/
def validateOne (ora : Str → Str) (ruleMatches : List (Criterion × List Str))
    (fullText : Str) (c : Criterion) : List Str :=
  let validated := (lookupD ruleMatches c []).filter (fun m => validateMatch ora c m)
  if validated.isEmpty then
    let context := lookupD (sectionContext fullText) c (fullText.take 1000)
    if !context.isEmpty && validateMatch ora c context then [secTag context] else []
  else validated

/-- `validate_with_llm(rule_matches, full_text)`: one entry for every
key of `LLM_PROMPTS`, in insertion order. -/
def validateWithLLM (ora : Str → Str) (ruleMatches : List (Criterion × List Str))
    (fullText : Str) : List (Criterion × List Str) :=
  allCriteria.map (fun c => (c, validateOne ora ruleMatches fullText c))

/-- The `weights` dict of `calculate_llm_score`, in insertion order. -/
def weightsDict : List (Criterion × Nat) :=
  [(.awards, 3), (.original_contribution, 3), (.critical_employment, 2), (.press, 2),
   (.judging, 2), (.scholarly_articles, 1), (.membership, 1), (.high_remuneration, 1)]

/-- `calculate_llm_score(matches)`: weighted sum of match counts. -/
def calculateLLMScore (ms : List (Criterion × List Str)) : Nat :=
  (ms.map (fun p => lookupD weightsDict p.1 0 * p.2.length)).sum

/-- `calculate_ratings(rule_matches, llm_matches)`: the triple
(rule-based rating, llm-based rating, combined rating). -/
def calculateRatings (ruleMatches llmMatches : List (Criterion × List Str)) :
    String × String × String :=
  let ruleScore := (ruleMatches.filter (fun p => !p.2.isEmpty)).length
  let llmScore := calculateLLMScore llmMatches
  (if 4 ≤ ruleScore then "high" else if 2 ≤ ruleScore then "medium" else "low",
   if 7 ≤ llmScore then "high" else if 4 ≤ llmScore then "medium" else "low",
   if 5 ≤ llmScore then "high" else if 3 ≤ llmScore then "medium" else "low")

/-- The response schema of `schemas.AssessmentResult`. -/
structure AssessmentResult where
  rule_based_matches : List (Criterion × List Str)
  rule_based_rating : String
  llm_validated_matches : List (Criterion × List Str)
  llm_based_rating : String
  combined_rating : String
deriving DecidableEq

/-- `hybrid_evaluation(text)`, with `query_llm` abstracted as `ora`. -/
def hybridEvaluation (ora : Str → Str) (text : Str) : AssessmentResult :=
  let ruleMatches := ruleBasedScan text
  let llmValidated := validateWithLLM ora ruleMatches text
  let ratings := calculateRatings ruleMatches llmValidated
  ⟨ruleMatches, ratings.1, llmValidated, ratings.2.1, ratings.2.2⟩

/-!  Claim-side definitions, formalising the spec wording rather than the
source; each is compared with the corresponding source-side definition in
the theorems below. -/

/-- Claim-side (C8): collapse duplicates to the position of their first
occurrence, preserving first-seen order. -/
def firstOccDedup : List Str → List Str
  | [] => []
  | x :: xs => x :: firstOccDedup (xs.filter (fun y => y ≠ x))
termination_by l => l.length
decreasing_by
  simp only [List.length_cons]
  exact Nat.lt_succ_of_le (List.length_filter_le _ _)

/-- Raw (undeduplicated) stream of context windows produced for one
criterion, in scan order. -/
def rawWindows (text textLower : Str) (patterns : List RE) : List Str :=
  patterns.flatMap (fun p => (finditer p textLower).map (fun pos => getContextWindow text pos 200))

/-- Claim-side (C9): the span from the first found header to the next
blank-line boundary (or document end), without whitespace stripping. -/
def claimSpanGo (text textLower : Str) : List Str → Str
  | [] => []
  | h :: hs =>
    match sfind textLower (lowerStr h) with
    | some start =>
      match sfindFrom textLower nlnl start with
      | some stop => pySlice text start stop
      | none => text.drop start
    | none => claimSpanGo text textLower hs

/-- Claim-side (C9): section span as the claim words it. -/
def claimSpan (text : Str) (headers : List Str) : Str :=
  claimSpanGo text (lowerStr text) headers

/-- Claim-side (C5): the number of criteria with at least one candidate match. -/
def nonemptyCriteriaCount (rm : List (Criterion × List Str)) : Nat :=
  (rm.filter (fun p => p.2 ≠ [])).length

/-- Claim-side (C6): the per-criterion weights exactly as the claim lists them. -/
def claimWeight : Criterion → Nat
  | .awards => 3
  | .original_contribution => 3
  | .critical_employment => 2
  | .press => 2
  | .judging => 2
  | .scholarly_articles => 1
  | .membership => 1
  | .high_remuneration => 1

/-- Claim-side (C6): sum over criteria of weight × confirmed-match count. -/
def claimOracleScore (lm : List (Criterion × List Str)) : Nat :=
  (lm.map (fun p => claimWeight p.1 * p.2.length)).sum

/-- The expression `section_context.get(criterion, full_text[:1000])` used by
`validate_with_llm` to pick the fallback context of a criterion. -/
def fallbackContext (fullText : Str) (c : Criterion) : Str :=
  lookupD (sectionContext fullText) c (fullText.take 1000)

/-- Concrete candidate mapping with four non-empty criteria (used as input data). -/
def rmFour : List (Criterion × List Str) :=
  [(.awards, ["x".data]), (.membership, ["x".data]), (.press, ["x".data]),
   (.judging, ["x".data])]

/-- Concrete confirmed mapping with no matches at all (used as input data). -/
def lmEmpty : List (Criterion × List Str) := allCriteria.map (fun c => (c, []))

/-- Concrete confirmed mapping worth 3 + 3 + 2 = 8 weighted points (used as input data). -/
def lmEight : List (Criterion × List Str) :=
  [(.awards, ["x".data]), (.original_contribution, ["x".data]), (.press, ["x".data])]

/-!  Helper lemmas. -/

theorem lookupD_map_self {α : Type} (g : Criterion → α) (d : α) :
    ∀ (l : List Criterion) (c : Criterion), c ∈ l →
      lookupD (l.map (fun x => (x, g x))) c d = g c := by
  intro l
  induction l with
  | nil => intro c hc; cases hc
  | cons x xs ih =>
    intro c hc
    simp only [List.map_cons, lookupD]
    by_cases hx : x = c
    · rw [if_pos hx, hx]
    · rw [if_neg hx]
      rcases List.mem_cons.mp hc with h | h
      · exact absurd h.symm hx
      · exact ih c h

theorem firstOccDedup_sound :
    ∀ (n : Nat) (l : List Str), l.length ≤ n →
      (firstOccDedup l).Nodup ∧ ∀ y, y ∈ firstOccDedup l ↔ y ∈ l := by
  intro n
  induction n with
  | zero =>
    intro l hl
    have : l = [] := List.length_eq_zero.mp (Nat.le_zero.mp hl)
    subst this
    simp [firstOccDedup]
  | succ n ih =>
    intro l hl
    match l with
    | [] => simp [firstOccDedup]
    | x :: xs =>
      have hlen : (xs.filter (fun y => y ≠ x)).length ≤ n :=
        le_trans (List.length_filter_le _ _) (Nat.le_of_succ_le_succ hl)
      obtain ⟨hnd, hmem⟩ := ih _ hlen
      constructor
      · rw [firstOccDedup]
        refine List.nodup_cons.mpr ⟨?_, hnd⟩
        intro hx
        have := (hmem x).mp hx
        simp at this
      · intro y
        rw [firstOccDedup]
        simp only [List.mem_cons, hmem y, List.mem_filter]
        by_cases hyx : y = x <;> simp [hyx]

theorem firstOccDedup_nodup (l : List Str) : (firstOccDedup l).Nodup :=
  (firstOccDedup_sound l.length l le_rfl).1

theorem mem_firstOccDedup (l : List Str) (y : Str) : y ∈ firstOccDedup l ↔ y ∈ l :=
  (firstOccDedup_sound l.length l le_rfl).2 y

theorem foldl_dedup_eq :
    ∀ (l : List Str) (acc : List Str),
      l.foldl (fun ms c => if c ∈ ms then ms else ms ++ [c]) acc
        = acc ++ firstOccDedup (l.filter (fun y => y ∉ acc)) := by
  intro l
  induction l with
  | nil => intro acc; simp [firstOccDedup]
  | cons x xs ih =>
    intro acc
    by_cases hx : x ∈ acc
    · rw [List.foldl_cons, if_pos hx,
        List.filter_cons_of_neg (by simpa using hx)]
      exact ih acc
    · rw [List.foldl_cons, if_neg hx,
        List.filter_cons_of_pos (by simpa using hx), ih (acc ++ [x]), firstOccDedup]
      have hpred : ∀ y ∈ xs, (decide (y ∉ acc ++ [x]))
          = (decide (¬y = x) && decide (y ∉ acc)) := by
        intro y _
        by_cases h1 : y = x <;> by_cases h2 : y ∈ acc <;> simp [h1, h2]
      rw [List.filter_congr hpred, ← List.filter_filter]
      simp

theorem scanMatches_foldl (text textLower : Str) :
    ∀ (ps : List RE) (acc : List Str),
      ps.foldl
        (fun ms p =>
          (finditer p textLower).foldl
            (fun ms2 pos =>
              let context := getContextWindow text pos 200
              if context ∈ ms2 then ms2 else ms2 ++ [context])
            ms)
        acc
      = (rawWindows text textLower ps).foldl
          (fun ms c => if c ∈ ms then ms else ms ++ [c]) acc := by
  intro ps
  induction ps with
  | nil => intro acc; simp [rawWindows]
  | cons p ps ih =>
    intro acc
    rw [List.foldl_cons]
    unfold rawWindows
    rw [List.flatMap_cons, List.foldl_append, List.foldl_map]
    exact ih _

theorem scanMatches_eq (text textLower : Str) (ps : List RE) :
    scanMatches text textLower ps = firstOccDedup (rawWindows text textLower ps) := by
  unfold scanMatches
  rw [scanMatches_foldl, foldl_dedup_eq]
  simp

theorem mem_rawWindows (text textLower : Str) (ps : List RE) (e : Str) :
    e ∈ rawWindows text textLower ps → ∃ pos, e = getContextWindow text pos 200 := by
  intro h
  unfold rawWindows at h
  obtain ⟨p, _, hmem⟩ := List.mem_flatMap.mp h
  obtain ⟨pos, _, heq⟩ := List.mem_map.mp hmem
  exact ⟨pos, heq.symm⟩

theorem pstrip_sub (s : Str) : pstrip s <:+: s := by
  unfold pstrip
  have h1 : s.dropWhile pyIsSpace <:+ s := List.dropWhile_suffix _
  have h2 : (s.dropWhile pyIsSpace).reverse.dropWhile pyIsSpace
      <:+ (s.dropWhile pyIsSpace).reverse := List.dropWhile_suffix _
  have h3 := h2.reverse
  rw [List.reverse_reverse] at h3
  exact h3.isInfix.trans h1.isInfix

theorem pySlice_sub (s : Str) (a b : Nat) : pySlice s a b <:+: s :=
  ( List.take_prefix _ _).isInfix.trans ( List.drop_suffix _ _).isInfix

theorem pySlice_length_le (s : Str) (a b : Nat) : (pySlice s a b).length ≤ b - a := by
  unfold pySlice
  rw [List.length_take]
  exact min_le_left _ _

theorem getContextWindow_sub (text : Str) (pos ws : Nat) :
    getContextWindow text pos ws <:+: text ∧ (getContextWindow text pos ws).length ≤ 2 * ws := by
  unfold getContextWindow
  dsimp only
  refine ⟨(pstrip_sub _).trans (pySlice_sub _ _ _), ?_⟩
  have h1 := (pstrip_sub (pySlice text (pos - ws) (min text.length (pos + ws)))).length_le
  have h2 := pySlice_length_le text (pos - ws) (min text.length (pos + ws))
  have h3 : min text.length (pos + ws) ≤ pos + ws := min_le_right _ _
  omega

theorem validateWithLLM_no_yes (ora : Str → Str)
    (rm : List (Criterion × List Str)) (text : Str)
    (h : ∀ p, scontains (lowerStr (ora p)) "yes".data = false) :
    validateWithLLM ora rm text = allCriteria.map (fun c => (c, [])) := by
  unfold validateWithLLM
  apply List.map_congr_left
  intro c _
  have hv : ∀ m, validateMatch ora c m = false := fun m => h _
  have hfil : (lookupD rm c []).filter (fun m => validateMatch ora c m) = [] :=
    List.filter_eq_nil_iff.mpr (fun a _ => by simp [hv a])
  unfold validateOne
  rw [hfil]
  simp [hv]

/-!  Claim theorems. -/

/-- Claim C1, counterexample: the candidate-match mapping produced by
`hybrid_evaluation` does not contain all eight criteria as keys — at the
concrete input text `""` (as at every text) the key `judging` is absent
from `rule_based_matches`, whose key set is only the five criteria of
`CRITERIA_PATTERNS`. -/
theorem C1_counterexample :
    Criterion.judging ∉
      ((hybridEvaluation (fun _ => []) []).rule_based_matches).map Prod.fst ∧
    ((hybridEvaluation (fun _ => []) []).rule_based_matches).map Prod.fst
      ≠ allCriteria := by
  decide

/-- Claim C1 (amended): for every input text the confirmed-match mapping
`llm_validated_matches` contains all eight fixed criteria as keys (a
criterion with zero matches maps to the empty sequence, not an absent
key), while `rule_based_matches` contains exactly the five
pattern-backed criteria (awards, membership, press,
original_contribution, critical_employment). -/
theorem C1_all_keys_amended (ora : Str → Str) (text : Str) :
    ((hybridEvaluation ora text).rule_based_matches).map Prod.fst
      = [.awards, .membership, .press, .original_contribution, .critical_employment] ∧
    ((hybridEvaluation ora text).llm_validated_matches).map Prod.fst = allCriteria :=
  ⟨rfl, rfl⟩

/-- Claim C2, counterexample: with four non-empty rule criteria and an
empty confirmed mapping, `calculate_ratings` returns rule rating `high`
but combined rating `low` — so the combined rating is not `high` when a
component rating is `high`. -/
theorem C2_counterexample :
    calculateRatings rmFour lmEmpty = ("high", "low", "low") ∧
    (calculateRatings rmFour lmEmpty).1 = "high" ∧
    (calculateRatings rmFour lmEmpty).2.2 ≠ "high" := by
  decide

/-- Claim C2 (amended): the combined rating is a function of the
oracle-weighted score alone — `high` when the score is ≥ 5, `medium`
when ≥ 3, else `low` — and is therefore independent of the rule-based
component (neither any-high-wins nor minimum-of-two holds). -/
theorem C2_combined_amended (rm rm2 lm : List (Criterion × List Str)) :
    (calculateRatings rm lm).2.2
      = (if 5 ≤ calculateLLMScore lm then "high"
         else if 3 ≤ calculateLLMScore lm then "medium" else "low") ∧
    (calculateRatings rm lm).2.2 = (calculateRatings rm2 lm).2.2 :=
  ⟨rfl, rfl⟩

/-- Claim C3, counterexample: at text `"award"` the scanner yields the
awards candidate `"award"`; with an oracle that always fails
(`query_llm` returns `"error: network_failure"`), the candidate is
silently dropped from the confirmed-match mapping (`awards ↦ []`, no
`validation-failed` marker), and the outcome is identical to that of an
oracle that rejects every excerpt with reply `"no"`. -/
theorem C3_counterexample :
    lookupD (ruleBasedScan "award".data) .awards [] = ["award".data] ∧
    lookupD
      (validateWithLLM (fun _ => "error: network_failure".data)
        (ruleBasedScan "award".data) "award".data) .awards [] = [] ∧
    validateWithLLM (fun _ => "error: network_failure".data)
        (ruleBasedScan "award".data) "award".data
      = validateWithLLM (fun _ => "no".data) (ruleBasedScan "award".data) "award".data := by
  decide

/-- Claim C3 (amended): a (criterion, excerpt) pair whose oracle
validation fails is treated exactly like a rejected one — with no
affirmative token in any reply, a failing oracle and a rejecting oracle
produce the same confirmed-match mapping, the failed excerpts contribute
nothing to the oracle weighted score, and they appear in no
confirmed-match list (they remain visible only among the rule-based
candidate matches). -/
theorem C3_failure_amended (oraF oraR : Str → Str)
    (hF : ∀ p, scontains (lowerStr (oraF p)) "yes".data = false)
    (hR : ∀ p, scontains (lowerStr (oraR p)) "yes".data = false)
    (rm : List (Criterion × List Str)) (text : Str) :
    validateWithLLM oraF rm text = validateWithLLM oraR rm text ∧
    calculateLLMScore (validateWithLLM oraF rm text) = 0 := by
  rw [validateWithLLM_no_yes oraF rm text hF, validateWithLLM_no_yes oraR rm text hR]
  exact ⟨rfl, rfl⟩

theorem C3_failure_amended_witness :
    validateWithLLM (fun _ => "error: network_failure".data)
        (ruleBasedScan "award".data) "award".data
      = validateWithLLM (fun _ => "no".data) (ruleBasedScan "award".data) "award".data ∧
    calculateLLMScore
      (validateWithLLM (fun _ => "error: network_failure".data)
        (ruleBasedScan "award".data) "award".data) = 0 :=
  C3_failure_amended (fun _ => "error: network_failure".data) (fun _ => "no".data)
    (fun _ =>
      (by decide : scontains (lowerStr "error: network_failure".data) "yes".data = false))
    (fun _ => (by decide : scontains (lowerStr "no".data) "yes".data = false))
    (ruleBasedScan "award".data) "award".data

/-- Claim C4, counterexample: at text `"hello"` the awards criterion has
zero candidate matches and an empty extracted section; although the
bounded document prefix is non-empty and the (always-affirmative) oracle
would confirm it, `validate_with_llm` performs no fallback validation
for awards and leaves it unconfirmed — the document-prefix fallback is
not applied when the extracted section is empty. -/
theorem C4_counterexample :
    lookupD (ruleBasedScan "hello".data) .awards [] = [] ∧
    extractSection "hello".data ["awards".data, "honors".data, "recognition".data] = [] ∧
    "hello".data.take 1000 ≠ [] ∧
    validateMatch (fun _ => "yes".data) .awards ("hello".data.take 1000) = true ∧
    lookupD
      (validateWithLLM (fun _ => "yes".data) (ruleBasedScan "hello".data) "hello".data)
      .awards [] = [] := by
  decide

/-- Claim C4 (amended): when no candidate for a criterion is confirmed,
the orchestrator validates the fallback context
`section_context.get(criterion, full_text[:1000])` — for awards,
membership, press and original_contribution this is the extracted
section (and when that section is empty the criterion is skipped
entirely, with no document-prefix fallback); only for judging,
scholarly_articles, critical_employment and high_remuneration is it the
first 1000 characters of the document. A criterion with zero candidate
matches can thus still be confirmed, as a tagged `Section:` excerpt,
exactly when its fallback context is non-empty and the oracle confirms
it. -/
theorem C4_fallback_amended (ora : Str → Str) (rm : List (Criterion × List Str))
    (text : Str) (c : Criterion)
    (hnone : (lookupD rm c []).filter (fun m => validateMatch ora c m) = []) :
    lookupD (validateWithLLM ora rm text) c []
      = (if !(fallbackContext text c).isEmpty
            && validateMatch ora c (fallbackContext text c)
         then [secTag (fallbackContext text c)] else []) ∧
    fallbackContext text .awards
      = extractSection text ["awards".data, "honors".data, "recognition".data] ∧
    fallbackContext text .membership
      = extractSection text ["membership".data, "leadership".data, "advisory".data] ∧
    fallbackContext text .press
      = extractSection text ["media".data, "publications".data, "press".data] ∧
    fallbackContext text .original_contribution
      = extractSection text ["innovations".data, "contributions".data, "patents".data] ∧
    fallbackContext text .judging = text.take 1000 ∧
    fallbackContext text .scholarly_articles = text.take 1000 ∧
    fallbackContext text .critical_employment = text.take 1000 ∧
    fallbackContext text .high_remuneration = text.take 1000 := by
  refine ⟨?_, rfl, rfl, rfl, rfl, rfl, rfl, rfl, rfl⟩
  have hc : c ∈ allCriteria := by cases c <;> simp [allCriteria]
  have hval : lookupD (validateWithLLM ora rm text) c []
      = validateOne ora rm text c :=
    lookupD_map_self (validateOne ora rm text) [] allCriteria c hc
  rw [hval]
  unfold validateOne
  rw [hnone]
  rfl

theorem C4_fallback_amended_witness :
    lookupD (validateWithLLM (fun _ => "yes".data) [] "hello".data) .judging []
      = (if !(fallbackContext "hello".data .judging).isEmpty
            && validateMatch (fun _ => "yes".data) .judging
                 (fallbackContext "hello".data .judging)
         then [secTag (fallbackContext "hello".data .judging)] else []) :=
  (C4_fallback_amended (fun _ => "yes".data) [] "hello".data .judging rfl).1

/-- Claim C5: the rule-based rating is a deterministic function of the
number of criteria with at least one candidate match — `high` for 4 or
more non-empty criteria, `medium` for 2 or 3, `low` for 0 or 1. -/
theorem C5_rule_rating (rm lm : List (Criterion × List Str)) :
    (4 ≤ nonemptyCriteriaCount rm → (calculateRatings rm lm).1 = "high") ∧
    (2 ≤ nonemptyCriteriaCount rm → nonemptyCriteriaCount rm ≤ 3 →
      (calculateRatings rm lm).1 = "medium") ∧
    (nonemptyCriteriaCount rm ≤ 1 → (calculateRatings rm lm).1 = "low") := by
  have hcount : (rm.filter (fun p => !p.2.isEmpty)).length = nonemptyCriteriaCount rm := by
    unfold nonemptyCriteriaCount
    congr 1
    apply List.filter_congr
    intro p _
    cases hp : p.2 <;> simp [hp]
  unfold calculateRatings
  dsimp only
  rw [hcount]
  refine ⟨fun h => ?_, fun h2 h3 => ?_, fun h1 => ?_⟩
  · rw [if_pos h]
  · rw [if_neg (by omega), if_pos h2]
  · rw [if_neg (by omega), if_neg (by omega)]

theorem C5_rule_rating_witness :
    (calculateRatings rmFour lmEmpty).1 = "high" :=
  (C5_rule_rating rmFour lmEmpty).1 (by decide)

/-- Claim C6: the oracle-based score is the weighted sum over criteria
of (weight × confirmed-match count) with weights awards=3,
original_contribution=3, critical_employment=2, press=2, judging=2,
scholarly_articles=1, membership=1, high_remuneration=1; the
oracle-based rating is `high` for score ≥ 7, `medium` for score ≥ 4,
else `low`. -/
theorem C6_oracle_score (rm lm : List (Criterion × List Str)) :
    calculateLLMScore lm = claimOracleScore lm ∧
    (7 ≤ calculateLLMScore lm → (calculateRatings rm lm).2.1 = "high") ∧
    (4 ≤ calculateLLMScore lm → calculateLLMScore lm < 7 →
      (calculateRatings rm lm).2.1 = "medium") ∧
    (calculateLLMScore lm < 4 → (calculateRatings rm lm).2.1 = "low") := by
  have hscore : calculateLLMScore lm = claimOracleScore lm := by
    unfold calculateLLMScore claimOracleScore
    congr 1
    apply List.map_congr_left
    intro p _
    congr 1
    cases p.1 <;> rfl
  refine ⟨hscore, fun h => ?_, fun h2 h3 => ?_, fun h1 => ?_⟩
  · unfold calculateRatings
    dsimp only
    rw [if_pos h]
  · unfold calculateRatings
    dsimp only
    rw [if_neg (by omega), if_pos h2]
  · unfold calculateRatings
    dsimp only
    rw [if_neg (by omega), if_neg (by omega)]

theorem C6_oracle_score_witness :
    calculateLLMScore lmEight = claimOracleScore lmEight ∧
    (calculateRatings [] lmEight).2.1 = "high" :=
  ⟨(C6_oracle_score [] lmEight).1, (C6_oracle_score [] lmEight).2.1 (by decide)⟩

/-- Claim C7: when every oracle reply lacks an affirmative token, the
assessment still returns a complete result — every confirmed-match list
is empty, the oracle-based rating is `low`, and the rule-based rating
equals what pattern scanning alone determines. -/
theorem C7_degraded (ora : Str → Str) (text : Str)
    (h : ∀ p, scontains (lowerStr (ora p)) "yes".data = false) :
    (hybridEvaluation ora text).llm_based_rating = "low" ∧
    (hybridEvaluation ora text).llm_validated_matches
      = allCriteria.map (fun c => (c, [])) ∧
    (hybridEvaluation ora text).rule_based_rating
      = (calculateRatings (ruleBasedScan text) (allCriteria.map (fun c => (c, [])))).1 := by
  have hv := validateWithLLM_no_yes ora (ruleBasedScan text) text h
  refine ⟨?_, ?_, ?_⟩
  · have e1 : (hybridEvaluation ora text).llm_based_rating
        = (calculateRatings (ruleBasedScan text)
            (validateWithLLM ora (ruleBasedScan text) text)).2.1 := rfl
    rw [e1, hv]
    rfl
  · exact hv
  · have e2 : (hybridEvaluation ora text).rule_based_rating
        = (calculateRatings (ruleBasedScan text)
            (validateWithLLM ora (ruleBasedScan text) text)).1 := rfl
    rw [e2, hv]

theorem C7_degraded_witness :
    (hybridEvaluation (fun _ => "error: api_failure".data) "award".data).llm_based_rating
      = "low" ∧
    (hybridEvaluation (fun _ => "error: api_failure".data) "award".data).llm_validated_matches
      = allCriteria.map (fun c => (c, [])) ∧
    (hybridEvaluation (fun _ => "error: api_failure".data) "award".data).rule_based_rating
      = (calculateRatings (ruleBasedScan "award".data)
          (allCriteria.map (fun c => (c, [])))).1 :=
  C7_degraded (fun _ => "error: api_failure".data) "award".data
    (fun _ => (by decide : scontains (lowerStr "error: api_failure".data) "yes".data = false))

/-- Claim C8: the scanner is deterministic (a pure function of the
text), and each per-criterion candidate list is exactly the
first-occurrence deduplication of the raw stream of context windows of
that criterion's patterns — duplicates collapse to their first
occurrence, first-seen order is preserved, and the list has no
duplicates. -/
theorem C8_scanner (text : Str) :
    ruleBasedScan text = ruleBasedScan text ∧
    ∀ c l, (c, l) ∈ ruleBasedScan text →
      l.Nodup ∧ ∃ ps, (c, ps) ∈ CRITERIA_PATTERNS ∧
        l = firstOccDedup (rawWindows text (lowerStr text) ps) := by
  refine ⟨rfl, fun c l h => ?_⟩
  obtain ⟨cp, hcp, heq⟩ := List.mem_map.mp h
  obtain ⟨hc, hl⟩ := Prod.mk.injEq _ _ _ _ ▸ heq
  refine ⟨?_, cp.2, ?_, ?_⟩
  · rw [← hl, scanMatches_eq]
    exact firstOccDedup_nodup _
  · rw [← hc]
    exact (Prod.mk.eta) ▸ hcp
  · rw [← hl]
    exact scanMatches_eq _ _ _

theorem C8_scanner_witness :
    (["award".data] : List Str).Nodup ∧
    ∃ ps, (Criterion.awards, ps) ∈ CRITERIA_PATTERNS ∧
      ["award".data] = firstOccDedup (rawWindows "award".data (lowerStr "award".data) ps) :=
  (C8_scanner "award".data).2 .awards ["award".data] (by decide)

/-- Claim C9, counterexample: at text `"x awards \n\nmore"` with header
list `["awards"]`, `extract_section` returns the stripped text
`"awards"`, not the raw span `"awards "` running from the header
position to the blank-line boundary — the claim omits the whitespace
stripping. -/
theorem C9_counterexample :
    extractSection "x awards \n\nmore".data ["awards".data] = "awards".data ∧
    claimSpan "x awards \n\nmore".data ["awards".data] = "awards ".data ∧
    extractSection "x awards \n\nmore".data ["awards".data]
      ≠ claimSpan "x awards \n\nmore".data ["awards".data] := by
  decide

/-- Claim C9 (amended): for every text and every header priority list,
`extract_section` returns the whitespace-stripped form of the span
belonging to the first header in the supplied list that occurs
case-insensitively in the text — the span running from the header
position to the next blank-line boundary, or to the end of the document
if none — and the empty span when no header occurs. -/
theorem C9_section_amended (text : Str) (headers : List Str) :
    extractSection text headers = pstrip (claimSpan text headers) := by
  unfold extractSection claimSpan
  induction headers with
  | nil => rfl
  | cons h hs ih =>
    rw [extractSectionGo, claimSpanGo]
    cases hf : sfind (lowerStr text) (lowerStr h) with
    | none => exact ih
    | some start =>
      dsimp only
      unfold sectionAt
      cases hg : sfindFrom (lowerStr text) nlnl start <;> rfl

/-- Claim C10: every excerpt the scanner reports is a context window —
the whitespace-stripped slice of at most 200 characters on each side of
a match position, clipped to the document bounds — hence a contiguous
substring of the input text of length at most 400. -/
theorem C10_window (text : Str) (c : Criterion) (l : List Str) (e : Str)
    (hcl : (c, l) ∈ ruleBasedScan text) (he : e ∈ l) :
    (∃ pos, e = getContextWindow text pos 200) ∧ e.length ≤ 400 ∧ e <:+: text := by
  obtain ⟨cp, hcp, heq⟩ := List.mem_map.mp hcl
  obtain ⟨hc, hl⟩ := Prod.mk.injEq _ _ _ _ ▸ heq
  rw [← hl, scanMatches_eq] at he
  have hraw : e ∈ rawWindows text (lowerStr text) cp.2 := (mem_firstOccDedup _ _).mp he
  obtain ⟨pos, hpos⟩ := mem_rawWindows text (lowerStr text) cp.2 e hraw
  have hsub := getContextWindow_sub text pos 200
  exact ⟨⟨pos, hpos⟩, by rw [hpos]; exact hsub.2, hpos ▸ hsub.1⟩

theorem C10_window_witness :
    (∃ pos, "award".data = getContextWindow "award".data pos 200) ∧
    ("award".data).length ≤ 400 ∧ "award".data <:+: "award".data :=
  C10_window "award".data .awards ["award".data] "award".data (by decide) (by decide)
